import Mathlib

/-!
Verification of the BTHome BLE exporter core (`ble_exporter`): the packet
decoder (`parser.py`), the per-window aggregator and scan loop (`main.py`),
and the status tracker (`exporter.py`).

Modelling conventions:
* A payload (`bytes`) is a `List Nat`, each element a byte value.
* Python floats are modelled as exact rationals (`ℚ`).  Every value the
  program rounds (`round(x, 1)` / `round(x, 2)`) is, as an exact rational,
  already a multiple of the target precision (raw scaled integers divided by
  100, or tenths for the voltage curve), so the binary-float computation and
  any tie-breaking convention agree with the exact rational result.
* `dict[str, float]` results with the closed key set
  {temperature, humidity, battery} are a structure of three `Option ℚ`
  fields; an absent key is `none`.
* `ValueError` messages of the parser become a `DecodeError` sum type.
-/

namespace BleExporter

/-- Decode failures of `parse_bthome` (the distinct `ValueError`s raised in
`parser.py`): packet shorter than 2 bytes, a measured object with fewer
bytes remaining than its width (naming the field), and no sensor data. -/
inductive DecodeError where
  | tooShort : DecodeError
  | incompleteField : String → DecodeError
  | noData : DecodeError
deriving DecidableEq, Repr

/-- Measurement map produced by the parser: the Python result `dict` with
key set {temperature, humidity, battery}; `none` means the key is absent. -/
structure Meas where
  temperature : Option ℚ := none
  humidity : Option ℚ := none
  battery : Option ℚ := none
deriving DecidableEq, Repr

/-- Little-endian unsigned 16-bit value from two bytes
(`struct.unpack` with format `<H`). -/
def le16 (b0 b1 : Nat) : Nat := b0 + 256 * b1

/-- Reinterpret an unsigned 16-bit value as signed two's complement
(`struct.unpack` with format `<h`). -/
def toInt16 (n : Nat) : Int := if n < 32768 then (n : Int) else (n : Int) - 65536

/-- Python `round(q, ndigits)` on the exact rational value.  Python rounds
half to even; every value this program rounds is an exact multiple of the
target precision, so no tie can occur and any tie-breaking convention gives
the same result. -/
def roundTo (ndigits : Nat) (q : ℚ) : ℚ :=
  (round (q * 10 ^ ndigits) : ℚ) / 10 ^ ndigits

/-- Battery percentage from a raw millivolt reading, as computed for object
id 0x0C in `parser.py`: volts = raw × 0.001, CR2032 linear curve
(v − 2.0) / (3.0 − 2.0) × 100, clamped to [0, 100], rounded to 1 decimal. -/
def voltageToBattery (raw : Nat) : ℚ :=
  roundTo 1 (max 0 (min 100 (((raw : ℚ) * (1 / 1000) - 2) / (3 - 2) * 100)))

/-- Value-field width used when skipping an object id the parser does not
decode (the `else` branch tables in `parser.py`); unknown ids default to 1
byte to avoid an infinite loop. -/
def skipWidth (oid : Nat) : Nat :=
  if oid = 0x00 ∨ oid = 0x01 ∨ oid = 0x05 ∨ oid = 0x06 ∨ oid = 0x07 ∨
     oid = 0x08 ∨ oid = 0x09 ∨ oid = 0x0B ∨ oid = 0x0D then 1
  else if oid = 0x04 ∨ oid = 0x0E ∨ oid = 0x0F ∨ oid = 0x11 then 2
  else if oid = 0x10 then 3
  else 1

/-- The `while idx < len(payload)` loop of `parse_bthome`, operating on the
bytes from the current index on and threading the result map.  A skip that
would move `idx` past the end simply ends the loop (Python performs no
bounds check when skipping), which `List.drop` models by clamping. -/
def parseLoop : List Nat → Meas → Except DecodeError Meas
  | [], acc => .ok acc
  | oid :: rest, acc =>
    if oid = 0x02 then
      match rest with
      | b0 :: b1 :: rest2 =>
          parseLoop rest2
            { acc with temperature := some (roundTo 2 ((toInt16 (le16 b0 b1) : ℚ) * (1 / 100))) }
      | _ => .error (.incompleteField "temperature")
    else if oid = 0x03 then
      match rest with
      | b0 :: b1 :: rest2 =>
          parseLoop rest2 { acc with humidity := some (roundTo 2 ((le16 b0 b1 : ℚ) * (1 / 100))) }
      | _ => .error (.incompleteField "humidity")
    else if oid = 0x0A then
      match rest with
      | b :: rest2 => parseLoop rest2 { acc with battery := some (b : ℚ) }
      | _ => .error (.incompleteField "battery")
    else if oid = 0x0C then
      match rest with
      | b0 :: b1 :: rest2 =>
          parseLoop rest2 { acc with battery := some (voltageToBattery (le16 b0 b1)) }
      | _ => .error (.incompleteField "voltage")
    else
      parseLoop (rest.drop (skipWidth oid)) acc
termination_by l _ => l.length
decreasing_by
  all_goals simp [List.length_drop]
  all_goals omega

/-- `parse_bthome` from `parser.py`: reject payloads shorter than 2 bytes,
skip the device-info byte, run the object loop, and reject an empty
result map. -/
def parse_bthome (payload : List Nat) : Except DecodeError Meas :=
  if payload.length < 2 then .error .tooShort
  else
    match payload with
    | [] => .error .tooShort
    | _ :: rest =>
      match parseLoop rest {} with
      | .error e => .error e
      | .ok m => if m = ({} : Meas) then .error .noData else .ok m

/-- Device identifier: a MAC address string. -/
abbrev Mac := String

/-- One step of building the key order of the Python dict `packets_by_mac`
in `aggregate_scan_results`: a mac is admitted the first time it appears,
and only if it is in `known_macs`. -/
def insertKnown (known : List Mac) (acc : List Mac) (p : Mac × List Nat) : List Mac :=
  if p.1 ∈ known then (if p.1 ∈ acc then acc else acc ++ [p.1]) else acc

/-- The known device ids seen in one scan window, in first-appearance
order: the key order of `packets_by_mac` (a Python dict preserves
insertion order). -/
def seenMacs (results : List (Mac × List Nat)) (known : List Mac) : List Mac :=
  results.foldl (insertKnown known) []

/-- All payloads observed for one device id, in arrival order: the group
`packets_by_mac[mac]`. -/
def payloadsFor (results : List (Mac × List Nat)) (mac : Mac) : List (List Nat) :=
  (results.filter (fun p => p.1 = mac)).map Prod.snd

/-- Python `dict.update` on one key of the closed key set: the value of
the second map, when the key is present there, overwrites the first. -/
def updField (old new : Option ℚ) : Option ℚ :=
  match new with
  | some v => some v
  | none => old

/-- `merged_measurements.update(measurements)` on the closed key set. -/
def measUpdate (a b : Meas) : Meas :=
  { temperature := updField a.temperature b.temperature,
    humidity := updField a.humidity b.humidity,
    battery := updField a.battery b.battery }

/-- Body of the per-payload loop in `aggregate_scan_results`: decode the
payload and merge its measurements into the accumulator; a `DecodeError`
(Python `ValueError`) is silently swallowed. -/
def mergeStep (acc : Meas) (p : List Nat) : Meas :=
  match parse_bthome p with
  | .ok m => measUpdate acc m
  | .error _ => acc

/-- The merged measurements of one device id's payload group. -/
def mergePayloads (payloads : List (List Nat)) : Meas :=
  payloads.foldl mergeStep {}

/-- `aggregate_scan_results` from `main.py`.  Returns the aggregated
mapping as an association list in `packets_by_mac` key order (macs whose
merge produced at least one measurement), together with the list of macs
warned about (seen known macs all of whose payloads failed to parse).
Python iterates the warning set in unspecified order; the embedding fixes
first-appearance order, which carries the same multiset of warnings. -/
def aggregate_scan_results (results : List (Mac × List Nat)) (known : List Mac) :
    List (Mac × Meas) × List Mac :=
  ((seenMacs results known).map
      (fun mac => (mac, mergePayloads (payloadsFor results mac))) |>.filter
      (fun p => p.2 ≠ ({} : Meas)),
   (seenMacs results known).filter
      (fun mac => mergePayloads (payloadsFor results mac) = ({} : Meas)))

/-- The spec's §4.2 merge rule, stated in the spec's own words for
comparison with the implementation: decode every payload of the group,
silently drop the failures, and fold the successful measurement maps left
to right, a later payload's value overwriting an earlier one per key. -/
def mergeOfSuccesses (payloads : List (List Nat)) : Meas :=
  (payloads.filterMap (fun p =>
    match parse_bthome p with
    | .ok m => some m
    | .error _ => none)).foldl measUpdate {}

/-- `AppConfig` from `config.py`, restricted to the fields the scan loop
reads; the `devices` dict is an association list mac → display name. -/
structure AppConfig where
  scan_interval_seconds : Int
  scan_duration_seconds : Int
  listen_port : Int
  devices : List (Mac × String)

/-- `StatusTracker` from `exporter.py`. -/
structure StatusTracker where
  scan_interval_seconds : Int
  scan_duration_seconds : Int
  last_scan_timestamp : Int := 0
  devices_seen : Int := 0
deriving DecidableEq, Repr

/-- `StatusTracker.update`: set the two mutable status fields. -/
def StatusTracker.update (s : StatusTracker) (timestamp : Int) (num_devices : Int) :
    StatusTracker :=
  { s with last_scan_timestamp := timestamp, devices_seen := num_devices }

/-- Externally visible actions of one `scan_loop` iteration, in program
order: metric-sink writes, suspensions, the back-to-back configuration
warning and the caught-error report. -/
inductive LoopEffect where
  | updateMetrics (device_name : String) (measurements : Meas)
  | sleep (seconds : Int)
  | configWarning
  | errorLog
deriving DecidableEq, Repr

/-- One iteration of the `while True` body of `scan_loop` in `main.py`.
The radio scan is the loop body's effectful operation, so a fault anywhere
in the `try` block is modelled as the scan outcome being an error; `now`
is the `int(time.time())` timestamp.  Returns the tracker after the
iteration and the iteration's effects in program order. -/
def scan_loop_iter (config : AppConfig) (tracker : StatusTracker)
    (scanOutcome : Except String (List (Mac × List Nat))) (now : Int) :
    StatusTracker × List LoopEffect :=
  match scanOutcome with
  | .error _ => (tracker, [.errorLog, .sleep 5])
  | .ok results =>
      let updates := (aggregate_scan_results results (config.devices.map Prod.fst)).1.filterMap
        (fun p =>
          match config.devices.lookup p.1 with
          | some nm => some (nm, p.2)
          | none => none)
      (tracker.update now updates.length,
        updates.map (fun u => LoopEffect.updateMetrics u.1 u.2) ++
          (if config.scan_interval_seconds - config.scan_duration_seconds > 0 then
            [LoopEffect.sleep (config.scan_interval_seconds - config.scan_duration_seconds)]
          else [LoopEffect.configWarning]))

/-- The skip width of every object id is 1, 2 or 3. -/
lemma skipWidth_cases (oid : Nat) :
    skipWidth oid = 1 ∨ skipWidth oid = 2 ∨ skipWidth oid = 3 := by
  unfold skipWidth
  split_ifs <;> simp

/-- An object id the parser does not decode is skipped by its declared
width, clamped to the end of the payload, with no error and no change to
the result map. -/
lemma parseLoop_skip (oid : Nat) (rest : List Nat) (acc : Meas)
    (h2 : oid ≠ 0x02) (h3 : oid ≠ 0x03) (hA : oid ≠ 0x0A) (hC : oid ≠ 0x0C) :
    parseLoop (oid :: rest) acc = parseLoop (rest.drop (skipWidth oid)) acc := by
  match rest with
  | [] => rw [parseLoop] <;> simp [h2, h3, hA, hC]
  | [a] => rw [parseLoop] <;> simp [h2, h3, hA, hC]
  | a :: b :: t => rw [parseLoop] <;> simp [h2, h3, hA, hC]

/-- A 0x0C object consumes exactly the two bytes after its id and writes
the voltage-derived battery value over whatever was in the result map. -/
lemma parseLoop_voltage (b0 b1 : Nat) (rest : List Nat) (acc : Meas) :
    parseLoop (0x0C :: b0 :: b1 :: rest) acc =
      parseLoop rest { acc with battery := some (voltageToBattery (le16 b0 b1)) } := by
  rw [parseLoop]; simp

/-- A 0x02 object consumes the two bytes after its id and writes the
temperature. -/
lemma parseLoop_temp (b0 b1 : Nat) (rest : List Nat) (acc : Meas) :
    parseLoop (0x02 :: b0 :: b1 :: rest) acc =
      parseLoop rest
        { acc with temperature := some (roundTo 2 ((toInt16 (le16 b0 b1) : ℚ) * (1 / 100))) } := by
  rw [parseLoop]; simp

/-- A 0x03 object consumes the two bytes after its id and writes the
humidity. -/
lemma parseLoop_hum (b0 b1 : Nat) (rest : List Nat) (acc : Meas) :
    parseLoop (0x03 :: b0 :: b1 :: rest) acc =
      parseLoop rest { acc with humidity := some (roundTo 2 ((le16 b0 b1 : ℚ) * (1 / 100))) } := by
  rw [parseLoop]; simp

/-- A 0x0A object consumes the byte after its id and writes the battery. -/
lemma parseLoop_batt (b : Nat) (rest : List Nat) (acc : Meas) :
    parseLoop (0x0A :: b :: rest) acc = parseLoop rest { acc with battery := some (b : ℚ) } := by
  match rest with
  | [] => simp [parseLoop]
  | c :: t => rw [parseLoop] <;> simp

/-- A 0x02 object with fewer than 2 bytes left fails naming temperature. -/
lemma parseLoop_temp_short (rest : List Nat) (acc : Meas) (h : rest.length < 2) :
    parseLoop (0x02 :: rest) acc = .error (.incompleteField "temperature") := by
  match rest with
  | [] => rw [parseLoop] <;> simp
  | [a] => rw [parseLoop] <;> simp
  | a :: b :: t => exact absurd h (by simp)

/-- A 0x03 object with fewer than 2 bytes left fails naming humidity. -/
lemma parseLoop_hum_short (rest : List Nat) (acc : Meas) (h : rest.length < 2) :
    parseLoop (0x03 :: rest) acc = .error (.incompleteField "humidity") := by
  match rest with
  | [] => rw [parseLoop] <;> simp
  | [a] => rw [parseLoop] <;> simp
  | a :: b :: t => exact absurd h (by simp)

/-- A 0x0A object with no byte left fails naming battery. -/
lemma parseLoop_batt_short (acc : Meas) :
    parseLoop [0x0A] acc = .error (.incompleteField "battery") := by
  rw [parseLoop] <;> simp

/-- A 0x0C object with fewer than 2 bytes left fails naming voltage. -/
lemma parseLoop_volt_short (rest : List Nat) (acc : Meas) (h : rest.length < 2) :
    parseLoop (0x0C :: rest) acc = .error (.incompleteField "voltage") := by
  match rest with
  | [] => rw [parseLoop] <;> simp
  | [a] => rw [parseLoop] <;> simp
  | a :: b :: t => exact absurd h (by simp)

/-- C1: decoding the payload [0x40, 0x02, 0x66, 0x08, 0x03, 0x8C, 0x19,
0x0A, 0x55] yields exactly temperature 21.50 (signed little-endian 16-bit
2150 × 0.01 rounded to 2 decimals), humidity 65.40 (unsigned little-endian
16-bit 6540 × 0.01 rounded to 2 decimals) and battery 85.0 (the raw byte
0x55 as an exact integer-valued float). -/
theorem c1_decode_example :
    parse_bthome [0x40, 0x02, 0x66, 0x08, 0x03, 0x8C, 0x19, 0x0A, 0x55] =
      .ok { temperature := some 21.5, humidity := some 65.4, battery := some 85 } := by
  simp [parse_bthome, parseLoop]
  norm_num [roundTo, round_eq, le16, toInt16]

/-- C2: a 0x0C object always consumes exactly the 2 bytes after its id,
whatever their values (so a 0x0A byte inside the voltage field is never
read as an object id), decodes them as a little-endian unsigned voltage in
mV, and overwrites any battery value already in the result map with
clamp((mV/1000 − 2.0)/(3.0 − 2.0) × 100, 0, 100) rounded to 1 decimal
place; in particular decoding [0x40, 0x0C, 0x7B, 0x0B] gives battery
93.9. -/
theorem c2_voltage_decode :
    (∀ (b0 b1 : Nat) (rest : List Nat) (acc : Meas),
        parseLoop (0x0C :: b0 :: b1 :: rest) acc =
          parseLoop rest { acc with battery := some (voltageToBattery (le16 b0 b1)) }) ∧
    (∀ raw : Nat,
        voltageToBattery raw =
          roundTo 1 (max 0 (min 100 (((raw : ℚ) / 1000 - 2) / (3 - 2) * 100)))) ∧
    parse_bthome [0x40, 0x0C, 0x7B, 0x0B] = .ok { battery := some 93.9 } := by
  refine ⟨parseLoop_voltage, fun raw => by rw [voltageToBattery, mul_one_div], ?_⟩
  simp [parse_bthome, parseLoop]
  norm_num [voltageToBattery, roundTo, round_eq, le16]

/-- C3 counterexample: in the payload [0x40, 0x0A, 0x55, 0x10, 0x00] the
skipped object 0x10 (declared width 3) is encountered with only 1 byte
remaining, yet decoding succeeds with battery 85 instead of failing with
`IncompleteField`. -/
theorem c3_skip_counterexample :
    parse_bthome [0x40, 0x0A, 0x55, 0x10, 0x00] = .ok { battery := some 85 } := by
  simp [parse_bthome, parseLoop, skipWidth]

/-- C3 (amended): the parser raises `IncompleteField`, naming the field,
exactly for the four decoded object ids 0x02/0x03/0x0A/0x0C when fewer
bytes remain than the object's 2-, 2-, 1- or 2-byte width; every other
object id is skipped by its declared width with no bounds check, silently
consuming at most the remaining bytes.  In particular decoding
[0x40, 0x02, 0x6E] fails with IncompleteField(temperature). -/
theorem c3_incomplete_amended :
    (∀ (rest : List Nat) (acc : Meas), rest.length < 2 →
        parseLoop (0x02 :: rest) acc = .error (.incompleteField "temperature")) ∧
    (∀ (rest : List Nat) (acc : Meas), rest.length < 2 →
        parseLoop (0x03 :: rest) acc = .error (.incompleteField "humidity")) ∧
    (∀ acc : Meas, parseLoop [0x0A] acc = .error (.incompleteField "battery")) ∧
    (∀ (rest : List Nat) (acc : Meas), rest.length < 2 →
        parseLoop (0x0C :: rest) acc = .error (.incompleteField "voltage")) ∧
    (∀ (oid : Nat) (rest : List Nat) (acc : Meas),
        oid ≠ 0x02 → oid ≠ 0x03 → oid ≠ 0x0A → oid ≠ 0x0C →
        parseLoop (oid :: rest) acc = parseLoop (rest.drop (skipWidth oid)) acc) ∧
    parse_bthome [0x40, 0x02, 0x6E] = .error (.incompleteField "temperature") := by
  exact ⟨parseLoop_temp_short, parseLoop_hum_short, parseLoop_batt_short,
    parseLoop_volt_short, fun oid rest acc => parseLoop_skip oid rest acc,
    by simp [parse_bthome, parseLoop]⟩

/-- C3 witness: the amended theorem applied at concrete inputs. -/
theorem c3_incomplete_amended_witness :
    parseLoop [0x02, 0x6E] {} = .error (.incompleteField "temperature") ∧
    parseLoop [0x03, 0x8C] {} = .error (.incompleteField "humidity") ∧
    parseLoop [0x0A] {} = .error (.incompleteField "battery") ∧
    parseLoop [0x0C, 0x7B] {} = .error (.incompleteField "voltage") ∧
    parseLoop [0xFF, 0x01] {} = parseLoop ([0x01].drop (skipWidth 0xFF)) {} ∧
    parse_bthome [0x40, 0x02, 0x6E] = .error (.incompleteField "temperature") := by
  obtain ⟨h2, h3, hA, hC, hskip, hconc⟩ := c3_incomplete_amended
  exact ⟨h2 [0x6E] {} (by simp), h3 [0x8C] {} (by simp), hA {},
    hC [0x7B] {} (by simp),
    hskip 0xFF [0x01] {} (by simp) (by simp) (by simp) (by simp), hconc⟩

/-- C9: the parser terminates on every finite byte sequence.  Every skip
width is at least 1, and every iteration of the object loop either stops
with an error or continues on a strictly shorter byte list (at least the
object-id byte is always consumed, unrecognized ids being skipped as
1 byte); `parseLoop` is accordingly a total function in this development,
so no input can cause an infinite parsing loop. -/
theorem c9_termination :
    (∀ oid : Nat, 1 ≤ skipWidth oid) ∧
    (∀ (oid : Nat) (rest : List Nat) (acc : Meas),
        (∃ e, parseLoop (oid :: rest) acc = .error e) ∨
        (∃ (rest2 : List Nat) (acc2 : Meas),
          rest2.length < (oid :: rest).length ∧
          parseLoop (oid :: rest) acc = parseLoop rest2 acc2)) := by
  constructor
  · intro oid
    rcases skipWidth_cases oid with h | h | h <;> omega
  · intro oid rest acc
    by_cases h2 : oid = 0x02
    · subst h2
      match rest with
      | b0 :: b1 :: rest2 =>
          exact Or.inr ⟨rest2, _, by simp; omega, parseLoop_temp b0 b1 rest2 acc⟩
      | [] => exact Or.inl ⟨_, parseLoop_temp_short [] acc (by simp)⟩
      | [a] => exact Or.inl ⟨_, parseLoop_temp_short [a] acc (by simp)⟩
    by_cases h3 : oid = 0x03
    · subst h3
      match rest with
      | b0 :: b1 :: rest2 =>
          exact Or.inr ⟨rest2, _, by simp; omega, parseLoop_hum b0 b1 rest2 acc⟩
      | [] => exact Or.inl ⟨_, parseLoop_hum_short [] acc (by simp)⟩
      | [a] => exact Or.inl ⟨_, parseLoop_hum_short [a] acc (by simp)⟩
    by_cases hA : oid = 0x0A
    · subst hA
      match rest with
      | b :: rest2 => exact Or.inr ⟨rest2, _, by simp; omega, parseLoop_batt b rest2 acc⟩
      | [] => exact Or.inl ⟨_, parseLoop_batt_short acc⟩
    by_cases hC : oid = 0x0C
    · subst hC
      match rest with
      | b0 :: b1 :: rest2 =>
          exact Or.inr ⟨rest2, _, by simp; omega, parseLoop_voltage b0 b1 rest2 acc⟩
      | [] => exact Or.inl ⟨_, parseLoop_volt_short [] acc (by simp)⟩
      | [a] => exact Or.inl ⟨_, parseLoop_volt_short [a] acc (by simp)⟩
    exact Or.inr ⟨rest.drop (skipWidth oid), acc,
      by simp [List.length_drop]; omega, parseLoop_skip oid rest acc h2 h3 hA hC⟩

/-- Membership in the folded `packets_by_mac` key list: a mac is there iff
it was already accumulated or is a known mac appearing in the remaining
results. -/
lemma mem_foldl_insertKnown (known : List Mac) :
    ∀ (results : List (Mac × List Nat)) (acc : List Mac) (mac : Mac),
      mac ∈ results.foldl (insertKnown known) acc ↔
        mac ∈ acc ∨ (mac ∈ known ∧ mac ∈ results.map Prod.fst) := by
  intro results
  induction results with
  | nil => intro acc mac; simp
  | cons p l ih =>
    intro acc mac
    rw [List.foldl_cons, ih]
    unfold insertKnown
    by_cases hk : p.1 ∈ known
    · by_cases ha : p.1 ∈ acc
      · simp only [hk, ha, if_true, List.map_cons, List.mem_cons]
        constructor
        · rintro (h | ⟨hk2, hm⟩)
          · exact Or.inl h
          · exact Or.inr ⟨hk2, Or.inr hm⟩
        · rintro (h | ⟨hk2, hm | hm⟩)
          · exact Or.inl h
          · exact Or.inl (hm ▸ ha)
          · exact Or.inr ⟨hk2, hm⟩
      · simp only [hk, ha, if_true, if_false, List.map_cons, List.mem_cons,
          List.mem_append, List.mem_singleton]
        constructor
        · rintro ((h | h | h) | ⟨hk2, hm⟩)
          · exact Or.inl h
          · exact Or.inr ⟨h ▸ hk, Or.inl h⟩
          · exact absurd h (List.not_mem_nil mac)
          · exact Or.inr ⟨hk2, Or.inr hm⟩
        · rintro (h | ⟨hk2, hm | hm⟩)
          · exact Or.inl (Or.inl h)
          · exact Or.inl (Or.inr (Or.inl hm))
          · exact Or.inr ⟨hk2, hm⟩
    · simp only [hk, if_false, List.map_cons, List.mem_cons]
      constructor
      · rintro (h | ⟨hk2, hm⟩)
        · exact Or.inl h
        · exact Or.inr ⟨hk2, Or.inr hm⟩
      · rintro (h | ⟨hk2, hm | hm⟩)
        · exact Or.inl h
        · exact absurd (hm ▸ hk2) hk
        · exact Or.inr ⟨hk2, hm⟩

/-- A mac is seen iff it is known and appears in the scan results. -/
lemma mem_seenMacs (results : List (Mac × List Nat)) (known : List Mac) (mac : Mac) :
    mac ∈ seenMacs results known ↔ mac ∈ known ∧ mac ∈ results.map Prod.fst := by
  rw [seenMacs, mem_foldl_insertKnown]
  simp

/-- Folding `insertKnown` preserves distinctness of the key list. -/
lemma foldl_insertKnown_nodup (known : List Mac) :
    ∀ (results : List (Mac × List Nat)) (acc : List Mac), acc.Nodup →
      (results.foldl (insertKnown known) acc).Nodup := by
  intro results
  induction results with
  | nil => intro acc h; simpa
  | cons p l ih =>
    intro acc h
    rw [List.foldl_cons]
    apply ih
    unfold insertKnown
    split_ifs with h1 h2
    · exact h
    · simp [List.nodup_append, h, h2]
    · exact h

/-- Dict keys are unique: the seen-mac list has no duplicates. -/
lemma seenMacs_nodup (results : List (Mac × List Nat)) (known : List Mac) :
    (seenMacs results known).Nodup :=
  foldl_insertKnown_nodup known results [] (by simp)

/-- A payload is in a mac's group iff the pair was in the scan results. -/
lemma mem_payloadsFor (results : List (Mac × List Nat)) (mac : Mac) (p : List Nat) :
    p ∈ payloadsFor results mac ↔ (mac, p) ∈ results := by
  unfold payloadsFor
  rw [List.mem_map]
  constructor
  · rintro ⟨q, hq, rfl⟩
    rw [List.mem_filter] at hq
    obtain ⟨hq1, hq2⟩ := hq
    obtain ⟨q1, q2⟩ := q
    have hq1' : q1 = mac := by simpa using hq2
    subst hq1'
    exact hq1
  · intro h
    exact ⟨(mac, p), List.mem_filter.2 ⟨h, by simp⟩, rfl⟩

/-- If every payload of a group fails to decode, the merge loop leaves the
accumulator unchanged. -/
lemma foldl_mergeStep_all_fail :
    ∀ (ps : List (List Nat)) (acc : Meas),
      (∀ p ∈ ps, ∀ r, parse_bthome p ≠ .ok r) → ps.foldl mergeStep acc = acc := by
  intro ps
  induction ps with
  | nil => intro acc _; rfl
  | cons p l ih =>
    intro acc h
    rw [List.foldl_cons]
    have hp : mergeStep acc p = acc := by
      unfold mergeStep
      cases hcase : parse_bthome p with
      | ok m => exact absurd hcase (h p (by simp) m)
      | error e => rfl
    rw [hp]
    exact ih acc (fun q hq r => h q (by simp [hq]) r)

/-- A non-empty merged map means at least one payload of the group decoded
successfully. -/
lemma mergePayloads_ne_empty (ps : List (List Nat))
    (h : mergePayloads ps ≠ ({} : Meas)) :
    ∃ p ∈ ps, ∃ r, parse_bthome p = .ok r := by
  by_contra hc
  push_neg at hc
  exact h (foldl_mergeStep_all_fail ps {} hc)

/-- The implementation's merge agrees with the spec-worded merge of the
successfully decoded maps, from any accumulator. -/
lemma foldl_mergeStep_eq_spec :
    ∀ (ps : List (List Nat)) (acc : Meas),
      ps.foldl mergeStep acc =
        (ps.filterMap (fun p =>
          match parse_bthome p with
          | .ok m => some m
          | .error _ => none)).foldl measUpdate acc := by
  intro ps
  induction ps with
  | nil => intro acc; rfl
  | cons p l ih =>
    intro acc
    rw [List.foldl_cons]
    cases hcase : parse_bthome p with
    | ok m =>
        rw [List.filterMap_cons]
        simp only [hcase]
        rw [List.foldl_cons]
        rw [show mergeStep acc p = measUpdate acc m from by unfold mergeStep; rw [hcase]]
        exact ih (measUpdate acc m)
    | error e =>
        rw [List.filterMap_cons]
        simp only [hcase]
        rw [show mergeStep acc p = acc from by unfold mergeStep; rw [hcase]]
        exact ih acc

/-- An entry of the aggregate output comes from a seen mac, carries that
mac's merged measurements, and is non-empty. -/
lemma mem_aggregate_fst (results : List (Mac × List Nat)) (known : List Mac)
    (mac : Mac) (m : Meas)
    (h : (mac, m) ∈ (aggregate_scan_results results known).1) :
    mac ∈ seenMacs results known ∧
      m = mergePayloads (payloadsFor results mac) ∧ m ≠ ({} : Meas) := by
  unfold aggregate_scan_results at h
  rw [List.mem_filter] at h
  obtain ⟨hmem, hne⟩ := h
  rw [List.mem_map] at hmem
  obtain ⟨mac2, hmac2, heq⟩ := hmem
  have h1 : mac2 = mac := congrArg Prod.fst heq
  have h2 : mergePayloads (payloadsFor results mac2) = m := congrArg Prod.snd heq
  subst h1
  exact ⟨hmac2, h2.symm, by simpa using hne⟩

/-- C4: a device id appears in the aggregate output only if it is in the
known-device registry and at least one of its payloads in the window
decoded successfully (unknown entries are discarded before decoding); and
every metric-sink write of a scan-loop iteration carries the merged map of
such an aggregate entry together with its registry display name. -/
theorem c4_known_and_decoded_invariant :
    (∀ (results : List (Mac × List Nat)) (known : List Mac) (mac : Mac) (m : Meas),
        (mac, m) ∈ (aggregate_scan_results results known).1 →
        mac ∈ known ∧ ∃ p, p ∈ payloadsFor results mac ∧ ∃ r, parse_bthome p = .ok r) ∧
    (∀ (config : AppConfig) (tracker : StatusTracker)
        (results : List (Mac × List Nat)) (now : Int) (nm : String) (mm : Meas),
        LoopEffect.updateMetrics nm mm ∈ (scan_loop_iter config tracker (.ok results) now).2 →
        ∃ mac,
          (mac, mm) ∈ (aggregate_scan_results results (config.devices.map Prod.fst)).1 ∧
          config.devices.lookup mac = some nm) := by
  constructor
  · intro results known mac m h
    obtain ⟨hseen, hm, hne⟩ := mem_aggregate_fst results known mac m h
    obtain ⟨hknown, _⟩ := (mem_seenMacs results known mac).1 hseen
    refine ⟨hknown, ?_⟩
    obtain ⟨p, hp, r, hr⟩ := mergePayloads_ne_empty _ (hm ▸ hne)
    exact ⟨p, hp, r, hr⟩
  · intro config tracker results now nm mm h
    unfold scan_loop_iter at h
    rcases List.mem_append.1 h with hU | hT
    · rw [List.mem_map] at hU
      obtain ⟨u, hu, hequ⟩ := hU
      rw [List.mem_filterMap] at hu
      obtain ⟨q, hq, hfq⟩ := hu
      cases hlk : config.devices.lookup q.1 with
      | none => rw [hlk] at hfq; exact absurd hfq (by simp)
      | some nm2 =>
        rw [hlk] at hfq
        simp only [Option.some.injEq] at hfq
        obtain ⟨h1, h2⟩ := LoopEffect.updateMetrics.inj hequ
        refine ⟨q.1, ?_, ?_⟩
        · have : (q.1, mm) = q := by
            rw [← h2, ← hfq]
          rw [this]
          exact hq
        · rw [hlk, ← h1, ← hfq]
    · by_cases hc : config.scan_interval_seconds - config.scan_duration_seconds > 0 <;>
        simp [hc] at hT

/-- C4 witness: the invariant applied to a one-device scan window. -/
theorem c4_known_and_decoded_invariant_witness :
    ("aa" ∈ ["aa"] ∧
      ∃ p, p ∈ payloadsFor [("aa", [0x40, 0x0A, 0x55])] "aa" ∧
        ∃ r, parse_bthome p = .ok r) ∧
    ∃ mac,
      (mac, ({ battery := some 85 } : Meas)) ∈
        (aggregate_scan_results [("aa", [0x40, 0x0A, 0x55])]
          ((AppConfig.mk 30 5 8000 [("aa", "room")]).devices.map Prod.fst)).1 ∧
      (AppConfig.mk 30 5 8000 [("aa", "room")]).devices.lookup mac = some "room" := by
  have hagg : aggregate_scan_results [("aa", [0x40, 0x0A, 0x55])] ["aa"] =
      ([("aa", { battery := some 85 })], []) := by
    simp [aggregate_scan_results, seenMacs, insertKnown, payloadsFor, mergePayloads,
      mergeStep, parse_bthome, parseLoop, measUpdate, updField]
  constructor
  · apply c4_known_and_decoded_invariant.1 [("aa", [0x40, 0x0A, 0x55])] ["aa"] "aa"
      { battery := some 85 }
    rw [hagg]
    simp
  · apply c4_known_and_decoded_invariant.2 (AppConfig.mk 30 5 8000 [("aa", "room")])
      (StatusTracker.mk 30 5 0 0) [("aa", [0x40, 0x0A, 0x55])] 0 "room"
      { battery := some 85 }
    simp only [scan_loop_iter, List.map_cons, List.map_nil]
    rw [hagg]
    simp [List.lookup]

/-- C5: the aggregate entry of a device id is the left-to-right,
last-successful-payload-wins merge of the measurement maps of its
successfully decoded payloads in arrival order, failed payloads being
silently dropped; in particular two payloads of one known id, one with
temperature and humidity and one with (voltage-derived) battery, merge
into a single entry with all three keys and produce zero warnings. -/
theorem c5_merge_last_wins :
    (∀ payloads : List (List Nat), mergePayloads payloads = mergeOfSuccesses payloads) ∧
    (∀ (results : List (Mac × List Nat)) (known : List Mac) (mac : Mac) (m : Meas),
        (mac, m) ∈ (aggregate_scan_results results known).1 →
        m = mergeOfSuccesses (payloadsFor results mac)) ∧
    aggregate_scan_results
        [("m1", [0x40, 0x02, 0x66, 0x08, 0x03, 0x8C, 0x19]), ("m1", [0x40, 0x0C, 0x7B, 0x0B])]
        ["m1"] =
      ([("m1", { temperature := some 21.5, humidity := some 65.4, battery := some 93.9 })],
        []) := by
  refine ⟨fun payloads => foldl_mergeStep_eq_spec payloads {}, ?_, ?_⟩
  · intro results known mac m h
    obtain ⟨_, hm, _⟩ := mem_aggregate_fst results known mac m h
    rw [hm]
    exact foldl_mergeStep_eq_spec _ {}
  · simp [aggregate_scan_results, seenMacs, insertKnown, payloadsFor, mergePayloads,
      mergeStep, parse_bthome, parseLoop, measUpdate, updField]
    norm_num [roundTo, round_eq, le16, toInt16, voltageToBattery]

/-- C5 witness: the merge rule applied to the alternating-packet window. -/
theorem c5_merge_last_wins_witness :
    ({ temperature := some 21.5, humidity := some 65.4, battery := some 93.9 } : Meas) =
      mergeOfSuccesses (payloadsFor
        [("m1", [0x40, 0x02, 0x66, 0x08, 0x03, 0x8C, 0x19]), ("m1", [0x40, 0x0C, 0x7B, 0x0B])]
        "m1") := by
  apply c5_merge_last_wins.2.1 _ ["m1"] "m1"
  rw [c5_merge_last_wins.2.2]
  simp

/-- C6: a known id seen in the window whose payloads all fail to decode
gets exactly one warning naming it and no aggregate entry; an id outside
the registry gets no warning and no entry no matter how its payloads
decode. -/
theorem c6_failed_warning :
    ∀ (results : List (Mac × List Nat)) (known : List Mac) (mac : Mac),
      (mac ∈ known → mac ∈ results.map Prod.fst →
        (∀ p, p ∈ payloadsFor results mac → ∀ r, parse_bthome p ≠ .ok r) →
        ((aggregate_scan_results results known).2.count mac = 1 ∧
          ∀ m, (mac, m) ∉ (aggregate_scan_results results known).1)) ∧
      (mac ∉ known →
        ((aggregate_scan_results results known).2.count mac = 0 ∧
          ∀ m, (mac, m) ∉ (aggregate_scan_results results known).1)) := by
  intro results known mac
  constructor
  · intro hknown hseenmap hfail
    have hseen : mac ∈ seenMacs results known :=
      (mem_seenMacs results known mac).2 ⟨hknown, hseenmap⟩
    have hmerged : mergePayloads (payloadsFor results mac) = ({} : Meas) :=
      foldl_mergeStep_all_fail _ {} hfail
    constructor
    · have hW : mac ∈ (aggregate_scan_results results known).2 := by
        unfold aggregate_scan_results
        rw [List.mem_filter]
        exact ⟨hseen, by simp [hmerged]⟩
      have hnd : ((aggregate_scan_results results known).2).Nodup := by
        unfold aggregate_scan_results
        exact (seenMacs_nodup results known).filter _
      exact List.count_eq_one_of_mem hnd hW
    · intro m hm
      obtain ⟨_, hmeq, hne⟩ := mem_aggregate_fst results known mac m hm
      exact hne (hmeq.trans hmerged)
  · intro hunk
    constructor
    · apply List.count_eq_zero_of_not_mem
      intro hW
      have : mac ∈ seenMacs results known := by
        have := hW
        unfold aggregate_scan_results at this
        exact (List.mem_filter.1 this).1
      exact hunk ((mem_seenMacs results known mac).1 this).1
    · intro m hm
      obtain ⟨hseen, _, _⟩ := mem_aggregate_fst results known mac m hm
      exact hunk ((mem_seenMacs results known mac).1 hseen).1

/-- C6 witness: one known id with a failing payload and one unknown id. -/
theorem c6_failed_warning_witness :
    ((aggregate_scan_results [("aa", [0x40]), ("bb", [0x40])] ["aa"]).2.count "aa" = 1 ∧
      ∀ m, ("aa", m) ∉ (aggregate_scan_results [("aa", [0x40]), ("bb", [0x40])] ["aa"]).1) ∧
    ((aggregate_scan_results [("aa", [0x40]), ("bb", [0x40])] ["aa"]).2.count "bb" = 0 ∧
      ∀ m, ("bb", m) ∉ (aggregate_scan_results [("aa", [0x40]), ("bb", [0x40])] ["aa"]).1) := by
  constructor
  · apply (c6_failed_warning [("aa", [0x40]), ("bb", [0x40])] ["aa"] "aa").1
    · simp
    · simp
    · intro p hp r hr
      rw [mem_payloadsFor] at hp
      simp at hp
      subst hp
      rw [show parse_bthome [0x40] = .error .tooShort from rfl] at hr
      exact Except.noConfusion hr
  · apply (c6_failed_warning [("aa", [0x40]), ("bb", [0x40])] ["aa"] "bb").2
    simp

/-- C7: the idle step computes interval − duration; when positive the
iteration ends by suspending exactly that long (its one and only sleep,
with no configuration warning) before the next acquiring step, and when
zero or negative it emits the configuration warning and re-enters
acquiring with no suspension at all. -/
theorem c7_idle_step :
    ∀ (config : AppConfig) (tracker : StatusTracker)
      (results : List (Mac × List Nat)) (now : Int),
      (0 < config.scan_interval_seconds - config.scan_duration_seconds →
        ((scan_loop_iter config tracker (.ok results) now).2.getLast? =
          some (.sleep (config.scan_interval_seconds - config.scan_duration_seconds)) ∧
        LoopEffect.configWarning ∉ (scan_loop_iter config tracker (.ok results) now).2 ∧
        ∀ s, LoopEffect.sleep s ∈ (scan_loop_iter config tracker (.ok results) now).2 →
          s = config.scan_interval_seconds - config.scan_duration_seconds)) ∧
      (config.scan_interval_seconds - config.scan_duration_seconds ≤ 0 →
        (LoopEffect.configWarning ∈ (scan_loop_iter config tracker (.ok results) now).2 ∧
          ∀ s, LoopEffect.sleep s ∉ (scan_loop_iter config tracker (.ok results) now).2)) := by
  intro config tracker results now
  constructor
  · intro h
    have heff : (scan_loop_iter config tracker (.ok results) now).2 =
        ((aggregate_scan_results results (config.devices.map Prod.fst)).1.filterMap
          (fun p =>
            match config.devices.lookup p.1 with
            | some nm => some (nm, p.2)
            | none => none)).map (fun u => LoopEffect.updateMetrics u.1 u.2) ++
          [LoopEffect.sleep (config.scan_interval_seconds - config.scan_duration_seconds)] := by
      unfold scan_loop_iter
      rw [if_pos h]
    refine ⟨?_, ?_, ?_⟩
    · rw [heff]
      exact List.getLast?_concat _
    · rw [heff]
      intro hmem
      rcases List.mem_append.1 hmem with hx | hx
      · obtain ⟨u, _, hequ⟩ := List.mem_map.1 hx
        exact LoopEffect.noConfusion hequ
      · simp at hx
    · intro s
      rw [heff]
      intro hmem
      rcases List.mem_append.1 hmem with hx | hx
      · obtain ⟨u, _, hequ⟩ := List.mem_map.1 hx
        exact LoopEffect.noConfusion hequ
      · simpa using hx
  · intro h
    have heff : (scan_loop_iter config tracker (.ok results) now).2 =
        ((aggregate_scan_results results (config.devices.map Prod.fst)).1.filterMap
          (fun p =>
            match config.devices.lookup p.1 with
            | some nm => some (nm, p.2)
            | none => none)).map (fun u => LoopEffect.updateMetrics u.1 u.2) ++
          [LoopEffect.configWarning] := by
      unfold scan_loop_iter
      rw [if_neg (by omega)]
    constructor
    · rw [heff]
      exact List.mem_append.2 (Or.inr (by simp))
    · intro s
      rw [heff]
      intro hmem
      rcases List.mem_append.1 hmem with hx | hx
      · obtain ⟨u, _, hequ⟩ := List.mem_map.1 hx
        exact LoopEffect.noConfusion hequ
      · simp at hx

/-- C7 witness: a 30/5 configuration sleeps 25 seconds; a 5/30
configuration warns and never sleeps. -/
theorem c7_idle_step_witness :
    ((scan_loop_iter ⟨30, 5, 8000, []⟩ ⟨30, 5, 0, 0⟩ (.ok []) 0).2.getLast? =
        some (.sleep (30 - 5)) ∧
      LoopEffect.configWarning ∉ (scan_loop_iter ⟨30, 5, 8000, []⟩ ⟨30, 5, 0, 0⟩ (.ok []) 0).2 ∧
      ∀ s, LoopEffect.sleep s ∈ (scan_loop_iter ⟨30, 5, 8000, []⟩ ⟨30, 5, 0, 0⟩ (.ok []) 0).2 →
        s = 30 - 5) ∧
    (LoopEffect.configWarning ∈ (scan_loop_iter ⟨5, 30, 8000, []⟩ ⟨5, 30, 0, 0⟩ (.ok []) 0).2 ∧
      ∀ s, LoopEffect.sleep s ∉ (scan_loop_iter ⟨5, 30, 8000, []⟩ ⟨5, 30, 0, 0⟩ (.ok []) 0).2) :=
  ⟨(c7_idle_step ⟨30, 5, 8000, []⟩ ⟨30, 5, 0, 0⟩ [] 0).1 (by norm_num),
   (c7_idle_step ⟨5, 30, 8000, []⟩ ⟨5, 30, 0, 0⟩ [] 0).2 (by norm_num)⟩

/-- C8: a fault in the acquiring step is caught and reported, followed by
a fixed 5-second suspension before retrying; the iteration still returns
(the loop never exits on error) and leaves the status tracker exactly as
the last successful window left it. -/
theorem c8_error_recovery :
    ∀ (config : AppConfig) (tracker : StatusTracker) (err : String) (now : Int),
      scan_loop_iter config tracker (.error err) now =
        (tracker, [.errorLog, .sleep 5]) :=
  fun _ _ _ _ => rfl

/-- C10: `StatusTracker.update` writes exactly the two mutable status
fields and never touches the configured interval and duration. -/
theorem c10_update_frame :
    ∀ (s : StatusTracker) (t n : Int),
      (s.update t n).scan_interval_seconds = s.scan_interval_seconds ∧
      (s.update t n).scan_duration_seconds = s.scan_duration_seconds ∧
      (s.update t n).last_scan_timestamp = t ∧
      (s.update t n).devices_seen = n :=
  fun _ _ _ => ⟨rfl, rfl, rfl, rfl⟩

end BleExporter
